import Mathlib

/-!
Verification of the request/response correlation and fan-out bridge of
`rhasspyserver_hermes` (`__main__.py`), shallowly embedded in Lean 4.

The embedding covers:
* the MQTT topic matcher (wildcard segments `+` and `#`),
* the fan-out delivery path (`broadcast_mqtt` and the per-session queues),
* the WebSocket control-frame handler (`handle_ws_mqtt`) and the
  dual-wait session loop of `api_ws_mqtt`,
* the queue-registration decorators (`mqtt_websocket`, `logging_websocket`),
* the session-name registry (`session_names`, `api_start_recording`,
  `api_stop_recording`),
* the correlator `publish_wait` (modelled from the spec, as its code lives
  in `RhasspyCore`, outside the provided source file).
-/

namespace RhasspyBridge

/-! ## Topic matcher -/

/-- Split a list of characters on `/`, mirroring Python's `str.split("/")`:
the empty string splits to `[""]`, a trailing separator yields a trailing
empty segment. `acc` holds the current segment's characters in reverse. -/
def splitSlashAux : List Char → List Char → List String
  | [], acc => [String.mk acc.reverse]
  | c :: cs, acc =>
      if c = '/' then String.mk acc.reverse :: splitSlashAux cs []
      else splitSlashAux cs (c :: acc)

/-- Segments of a topic or pattern string, split on `/`. -/
def topicSegs (s : String) : List String :=
  splitSlashAux s.data []

/-- Pairwise segment walk of an MQTT pattern against a topic.
A trailing `#` consumes zero or more remaining topic segments; otherwise
a topic segment must be available, and `+` consumes it unconditionally
while a literal segment must be equal to it; a pattern exhausted before
the topic (or vice versa, absent a trailing `#`) is a non-match. -/
def matchSegs : List String → List String → Bool
  | [], ts => ts.isEmpty
  | p :: ps, ts =>
      if p = "#" ∧ ps = [] then true
      else
        match ts with
        | [] => false
        | t :: ts' => (p == "+" || p == t) && matchSegs ps ts'

/-- Modelled from the spec: the topic matcher used by the source is
`paho.mqtt.matcher.MQTTMatcher`, an external dependency whose code is not
part of this repository. Spec §4.1: split pattern and topic on `/` and
walk segments pairwise (`+` one segment, literal exact equality, trailing
`#` zero or more remaining segments). -/
def topicMatches (pattern topic : String) : Bool :=
  matchSegs (topicSegs pattern) (topicSegs topic)

/-! ## Fan-out delivery and the per-session send step -/

/-- A registered consumer queue: the patterns its session has stored in
its `MQTTMatcher` and the ordered buffer of `(topic, payload)` messages
put into its `asyncio.Queue`. -/
structure ConsumerQueue where
  subs : List String
  buffer : List (String × String)
deriving DecidableEq, Repr

/-- Embeds `broadcast_mqtt(topic, payload)` (source lines 1716–1719): for every
queue in `mqtt_websockets`, `await queue.put((topic, payload))` — the
message is appended to every registered queue, with no topic matching on
this path. -/
def broadcast_mqtt (hub : List ConsumerQueue) (topic payload : String) :
    List ConsumerQueue :=
  hub.map fun q => { q with buffer := q.buffer ++ [(topic, payload)] }

/-- The send branch of `api_ws_mqtt` (source lines 1772–1789), also the
body of `api_ws_mqtt_topic` (lines 1809–1824): a dequeued queue item is a
tuple whose first element must be `"mqtt"`; the session then iterates
`topic_matcher.iter_match(topic)` and sends one frame, breaking out of
the loop after the first successful match. Returns the frames sent for
one dequeued item. -/
def wsSendFrames (patterns : List String) (kind topic payload : String) :
    List (String × String) :=
  if kind == "mqtt" then
    match patterns.filter (fun p => topicMatches p topic) with
    | [] => []
    | _ :: _ => [(topic, payload)]
  else []

/-- Queue Q1 of the C1 scenario, subscribed to `x/#`. -/
def q1 : ConsumerQueue := { subs := ["x/#"], buffer := [] }

/-- Queue Q2 of the C1 scenario, subscribed to `y/#`. -/
def q2 : ConsumerQueue := { subs := ["y/#"], buffer := [] }

/-! ## WebSocket control frames (`handle_ws_mqtt`) -/

/-- An inbound websocket control frame as seen after `json.loads`:
either the JSON failed to parse, or an object with the (possibly absent)
fields `type`, `topic` and `payload`. -/
inductive WsFrame
  | unparseable
  | obj (type : Option String) (topic : Option String)
      (payload : Option String)
deriving DecidableEq, Repr

/-- The mutable state touched by one websocket session's control frames:
the patterns stored in its `MQTTMatcher` (`matcher[topic] = ...`), the
topics passed to `core.client.subscribe`, and the `(topic, payload)`
pairs passed to `core.client.publish`. -/
structure WsSession where
  matcher : List String
  busSubs : List String
  busPubs : List (String × String)
deriving DecidableEq, Repr

/-- Embeds `handle_ws_mqtt(message, matcher)` (source lines 1722–1743):
`json.loads` the frame (raises on bad JSON), read `message_dict["type"]`
(raises `KeyError` if absent), assert the type is `"subscribe"` or
`"publish"` (raises `AssertionError` otherwise), read the topic, then
either subscribe (`core.client.subscribe`; `matcher[topic] = ...`) or
publish (`core.client.publish`). Exceptions are modelled as `.error`. -/
def handle_ws_mqtt (message : WsFrame) (s : WsSession) :
    Except String WsSession :=
  match message with
  | .unparseable => .error "json.loads failed"
  | .obj type? topic? payload? =>
    match type? with
    | none => .error "KeyError: type"
    | some t =>
      if t = "subscribe" ∨ t = "publish" then
        match topic? with
        | none => .error "KeyError: topic"
        | some topic =>
          if t = "subscribe" then
            .ok { s with
                  busSubs := s.busSubs ++ [topic],
                  matcher :=
                    if topic ∈ s.matcher then s.matcher
                    else s.matcher ++ [topic] }
          else
            match payload? with
            | none => .error "KeyError: payload"
            | some pl => .ok { s with busPubs := s.busPubs ++ [(topic, pl)] }
      else .error "Invalid message type"

/-- The receive branch of `api_ws_mqtt`'s loop (source lines 1759–1771):
`handle_ws_mqtt` runs inside `try/except Exception` — the offending frame
is logged and dropped on error, leaving the session state unchanged — and
a new `websocket.receive()` task is scheduled unconditionally afterwards
(the returned `Bool` records that the receive was re-armed). -/
def wsRecvStep (message : WsFrame) (s : WsSession) : WsSession × Bool :=
  match handle_ws_mqtt message s with
  | .ok s' => (s', true)
  | .error _ => (s, true)

/-! ## The dual-wait session loop of `api_ws_mqtt` -/

/-- The kind of a pending task in `api_ws_mqtt`'s loop: a transport
receive (`websocket.receive()`) or a consumer-queue get (`queue.get()`). -/
inductive WsTaskKind
  | recv
  | send
deriving DecidableEq, Repr

/-- A pending task of the loop, identified by kind and a unique id (ids
model distinct `loop.create_task` objects). -/
structure WsTask where
  kind : WsTaskKind
  id : Nat
deriving DecidableEq, Repr

/-- The loop state: the `pending` set handed to `asyncio.wait` and a
counter supplying fresh task ids. -/
structure WsLoopState where
  pending : List WsTask
  nextId : Nat
deriving DecidableEq, Repr

/-- Re-arm every completed task: for each task in `done`, in order, a
fresh task of the same kind is created (`loop.create_task(...)`) and
collected to be added back to `pending`. -/
def rearmAll : List WsTask → Nat → List WsTask × Nat
  | [], n => ([], n)
  | t :: ts, n =>
      let rec_ := rearmAll ts (n + 1)
      (⟨t.kind, n⟩ :: rec_.1, rec_.2)

/-- Number of pending tasks of kind `k`. -/
def countKind (k : WsTaskKind) (l : List WsTask) : Nat :=
  (l.filter (fun t => t.kind == k)).length

/-- Loop state before the first iteration (source lines 1750–1755): one
`websocket.receive()` task and one `queue.get()` task. -/
def wsInit : WsLoopState :=
  { pending := [⟨.recv, 0⟩, ⟨.send, 1⟩], nextId := 2 }

/-- One iteration of the loop body (source lines 1757–1793):
`done, pending = await asyncio.wait(pending, return_when=FIRST_COMPLETED)`
splits the pending set into a nonempty completed part `done` and the
remainder `rest`; each completed task is processed and a fresh task of
the same kind is scheduled and added back to `pending`; `rest` is left
untouched. -/
inductive WsLoopStep : WsLoopState → WsLoopState → Prop
  | wait (s : WsLoopState) (done rest : List WsTask)
      (hperm : List.Perm s.pending (done ++ rest))
      (hne : done ≠ []) :
      WsLoopStep s
        { pending := rest ++ (rearmAll done s.nextId).1,
          nextId := (rearmAll done s.nextId).2 }

/-- States reachable by the session loop from its initial state. -/
inductive WsReachable : WsLoopState → Prop
  | init : WsReachable wsInit
  | step {s s' : WsLoopState} :
      WsReachable s → WsLoopStep s s' → WsReachable s'

/-! ## Queue-registration decorators -/

/-- The module-level fan-out registries: `mqtt_websockets`,
`core.message_queues` and `logging_websockets` (queues identified by an
opaque id). Python `set.add` is modelled as append of a fresh element and
`set.remove` as removal of every occurrence. -/
structure WsRegistries where
  mqtt_websockets : List Nat
  message_queues : List Nat
  logging_websockets : List Nat
deriving DecidableEq, Repr

/-- How the wrapped websocket handler finished: returned normally,
raised an exception, or was cancelled by transport close. -/
inductive HandlerExit
  | normal
  | raised
  | cancelled
deriving DecidableEq, Repr

/-- Embeds the `mqtt_websocket` decorator (source lines 1695–1713): create a fresh
queue, add it to `mqtt_websockets` and `core.message_queues`, run the
handler, and in `finally` remove it from both registries whatever the
handler's exit. -/
def mqtt_websocket (regs : WsRegistries) (q : Nat) (e : HandlerExit) :
    WsRegistries × HandlerExit :=
  let regs1 := { regs with
    mqtt_websockets := regs.mqtt_websockets ++ [q],
    message_queues := regs.message_queues ++ [q] }
  ({ regs1 with
    mqtt_websockets := regs1.mqtt_websockets.filter (· ≠ q),
    message_queues := regs1.message_queues.filter (· ≠ q) }, e)

/-- Embeds the `logging_websocket` decorator (source lines 1646–1659): create a
fresh queue, add it to `logging_websockets`, run the handler, and in
`finally` remove it whatever the handler's exit. -/
def logging_websocket (regs : WsRegistries) (q : Nat) (e : HandlerExit) :
    WsRegistries × HandlerExit :=
  let regs1 := { regs with
    logging_websockets := regs.logging_websockets ++ [q] }
  ({ regs1 with
    logging_websockets := regs1.logging_websockets.filter (· ≠ q) }, e)

/-! ## Session-name registry (`session_names`) -/

/-- The module-level dict `session_names: Dict[str, str]`, modelled as an
association list whose keys stay unique under the operations below. -/
abbrev SessionDict := List (String × String)

/-- Membership test `name in session_names`. -/
def dictHasKey (name : String) (d : SessionDict) : Bool :=
  d.any (fun kv => kv.1 == name)

/-- Assignment `session_names[name] = value`: Python dict assignment replaces the
entry for an existing key and appends a new entry otherwise. -/
def dictSet (name value : String) (d : SessionDict) : SessionDict :=
  if dictHasKey name d then
    d.map (fun kv => if kv.1 == name then (name, value) else kv)
  else d ++ [(name, value)]

/-- Lookup `session_names.get(name)`. -/
def dictLookup (name : String) (d : SessionDict) : Option String :=
  (d.find? (fun kv => kv.1 == name)).map Prod.snd

/-- Removal of `name`'s entry, the mutation performed by
`session_names.pop(name)`. -/
def dictErase (name : String) (d : SessionDict) : SessionDict :=
  d.filter (fun kv => ¬(kv.1 == name))

/-- Embeds `session_names.pop(name)`: the stored value together with the
registry without the entry, or `none` when the key is absent. -/
def dictPop (name : String) (d : SessionDict) :
    Option (String × SessionDict) :=
  match dictLookup name d with
  | none => none
  | some v => some (v, dictErase name d)

/-- The keys of the registry. -/
def dictKeys (d : SessionDict) : List String := d.map Prod.fst

/-- Result of one `/api/start-recording` request. -/
structure StartRecordingResult where
  sessionId : String
  registry : SessionDict
  published : List String
deriving DecidableEq, Repr

/-- Embeds `api_start_recording` (source lines 1255–1275): generate a fresh
`sessionId` (`uuid4`, supplied here as `fresh`), publish
`AsrStartListening`, store `session_names[name] = sessionId` and return
the id as the response body. -/
def api_start_recording (d : SessionDict) (name fresh : String) :
    StartRecordingResult :=
  { sessionId := fresh,
    registry := dictSet name fresh d,
    published := ["AsrStartListening sessionId=" ++ fresh] }

/-- Outcome of the `publish_wait` performed by `/api/stop-recording`:
either `AsrTextCaptured` for the session arrived in time, or the wait
failed (timeout, a non-`AsrTextCaptured` reply, or an exception). -/
inductive AsrWait
  | captured (text : String)
  | failed
deriving DecidableEq, Repr

/-- Result of one `/api/stop-recording` request. -/
structure StopRecordingResult where
  registry : SessionDict
  response : Except String String
  published : List String
deriving Repr

/-- Embeds `api_stop_recording` (source lines 1278–1320): assert the name is
registered (`AssertionError` "No session for name: ..." surfaces as an
error response when absent, registry untouched), `pop` the entry, then
publish `AsrStopListening` and wait for the transcription via
`publish_wait` (outcome abstracted as `wait`); the popped entry is never
re-inserted, whatever the outcome of the wait. -/
def api_stop_recording (d : SessionDict) (name : String) (wait : AsrWait) :
    StopRecordingResult :=
  match dictPop name d with
  | none =>
      { registry := d,
        response := .error ("No session for name: " ++ name),
        published := [] }
  | some (sessionId, d') =>
      { registry := d',
        response :=
          match wait with
          | .captured text => .ok text
          | .failed => .error "publish_wait failed",
        published := ["AsrStopListening sessionId=" ++ sessionId] }

/-! ## Correlator (`publish_wait`) -/

/-- Outcome of one `publish_wait` call: the predicate's Result, a
timeout, or an exception raised by the predicate. -/
inductive WaitResult (R : Type)
  | result (r : R)
  | timedOut
  | raised
deriving DecidableEq, Repr

/-- Hub- and bus-visible events of one `publish_wait` call, in order. -/
inductive CorrEv
  | registerQ (handle : Nat)
  | publishMsg (m : String)
  | deregisterQ (handle : Nat)
deriving DecidableEq, Repr

/-- The fan-out hub state seen by the correlator: the handles of the
currently-registered private queues and a fresh-handle counter. -/
structure CorrState where
  hub : List Nat
  nextHandle : Nat
deriving DecidableEq, Repr

/-- Allocate and register a fresh private queue, returning its handle. -/
def corrRegister (s : CorrState) : Nat × CorrState :=
  (s.nextHandle,
    { hub := s.hub ++ [s.nextHandle], nextHandle := s.nextHandle + 1 })

/-- Remove a queue from the hub. -/
def corrDeregister (handle : Nat) (s : CorrState) : CorrState :=
  { s with hub := s.hub.filter (· ≠ handle) }

/-- The receive loop of `publish_wait`: apply the predicate to each
message the private queue yields, in order; a `Result` ends the wait, a
predicate exception aborts it, and an exhausted queue (the deadline
elapsing with no Result) times out. Non-matching messages are discarded. -/
def waitLoop {R : Type}
    (pred : String × String → Except String (Option R)) :
    List (String × String) → WaitResult R
  | [] => .timedOut
  | m :: ms =>
      match pred m with
      | .error _ => .raised
      | .ok (some r) => .result r
      | .ok none => waitLoop pred ms

/-- Modelled from the spec: `RhasspyCore.publish_wait` lives in the
package `__init__.py`, which is not among the provided source files (only
its call sites are). Spec §4.3: register a private queue with the
fan-out hub; publish each outbound message to the bus, in order, only
after registration completes; then repeatedly receive from the private
queue, applying the predicate — a Result is returned immediately, and if
no Result arises before `timeout` elapses the call yields `TimedOut`;
the queue is deregistered on every exit path (result, timeout, predicate
exception). `inbound` is the finite list of messages the private queue
receives before the deadline. Returns the outcome, the final hub state
and the ordered event trace. -/
def publish_wait {R : Type} (s : CorrState) (outbound : List String)
    (pred : String × String → Except String (Option R))
    (inbound : List (String × String)) :
    WaitResult R × CorrState × List CorrEv :=
  let reg := corrRegister s
  let outc := waitLoop pred inbound
  (outc, corrDeregister reg.1 reg.2,
    .registerQ reg.1 :: (outbound.map CorrEv.publishMsg ++ [.deregisterQ reg.1]))

/-- Example predicate for the `publish_wait` witness: yields the payload
of the first message on topic `reply/42`. -/
def corrPredEx : String × String → Except String (Option String) :=
  fun m => if m.1 == "reply/42" then .ok (some m.2) else .ok none

/-! ## Helper lemmas and claim theorems -/

/-- C4: `matches(P, T)` splits both strings on `/` and walks segments
pairwise: `+` consumes exactly one topic segment, a literal segment must
equal the topic segment exactly, a trailing `#` consumes zero or more
remaining segments, and a segment-count mismatch without a trailing `#`
is a non-match; together with the five concrete examples of the spec. -/
theorem C4_topic_matcher :
    (∀ P T, topicMatches P T = matchSegs (topicSegs P) (topicSegs T)) ∧
    (∀ ps t ts, matchSegs ("+" :: ps) (t :: ts) = matchSegs ps ts) ∧
    (∀ p ps t ts, p ≠ "+" → p ≠ "#" →
      matchSegs (p :: ps) (t :: ts) = ((p == t) && matchSegs ps ts)) ∧
    (∀ ts, matchSegs ["#"] ts = true) ∧
    (∀ t ts, matchSegs [] (t :: ts) = false) ∧
    (∀ p ps, p :: ps ≠ ["#"] → matchSegs (p :: ps) [] = false) ∧
    topicMatches "a/+/c" "a/b/c" = true ∧
    topicMatches "a/+/c" "a/b/b/c" = false ∧
    topicMatches "a/#" "a" = true ∧
    topicMatches "a/#" "a/b/c" = true ∧
    topicMatches "a/+" "a" = false := by
  refine ⟨fun P T => rfl, ?_, ?_, ?_, ?_, ?_, ?_, ?_, ?_, ?_, ?_⟩
  · intro ps t ts
    have hne : ¬(("+" : String) = "#" ∧ ps = []) := by
      rintro ⟨h, -⟩; exact absurd h (by decide)
    simp [matchSegs, hne]
  · intro p ps t ts hplus hhash
    have hne : ¬(p = "#" ∧ ps = []) := by
      rintro ⟨h, -⟩; exact hhash h
    have hb : (p == "+") = false := beq_eq_false_iff_ne.mpr hplus
    simp [matchSegs, hne, hb]
  · intro ts
    have hpos : (("#" : String) = "#" ∧ ([] : List String) = []) := ⟨rfl, rfl⟩
    simp [matchSegs, hpos]
  · intro t ts; simp [matchSegs]
  · intro p ps h
    by_cases hp : p = "#" ∧ ps = []
    · exact absurd (by rw [hp.1, hp.2]) h
    · simp [matchSegs, hp]
  all_goals decide

/-- Closed instantiation of the hypothesis-bearing clauses of
`C4_topic_matcher` at concrete segments. -/
theorem C4_witness :
    matchSegs ["b"] ["b"] = ((("b" : String) == "b") && matchSegs [] []) ∧
    matchSegs ["b", "c"] [] = false := by
  refine ⟨C4_topic_matcher.2.2.1 "b" [] "b" [] (by decide) (by decide), ?_⟩
  exact C4_topic_matcher.2.2.2.2.2.1 "b" ["c"] (by decide)

/-- C1 counterexample: delivering a message on topic `x/1` to the hub
holding Q1 (pattern `x/#`) and Q2 (pattern `y/#`) puts the message into
Q2's buffer, although no pattern of Q2 matches `x/1` — delivery does not
filter by subscription, contradicting the claim that the message never
appears in Q2's buffer. -/
theorem C1_counterexample :
    (broadcast_mqtt [q1, q2] "x/1" "p")[1]? =
      some { subs := ["y/#"], buffer := [("x/1", "p")] } ∧
    (["y/#"] : List String).any (fun pat => topicMatches pat "x/1") = false := by
  constructor
  · rfl
  · decide

/-- C1 amended: `broadcast_mqtt` appends the message to the buffer of
every currently-registered queue, regardless of subscriptions; the
subscription patterns are applied only when a session dequeues the item,
so a message on `x/1` is forwarded to Q1's client and never forwarded to
Q2's client, even though it transits Q2's buffer. -/
theorem C1_deliver_appends_to_all :
    (∀ (hub : List ConsumerQueue) (topic payload : String)
        (q : ConsumerQueue), q ∈ hub →
        { q with buffer := q.buffer ++ [(topic, payload)] } ∈
          broadcast_mqtt hub topic payload) ∧
    (∀ (patterns : List String) (topic payload : String),
        patterns.any (fun p => topicMatches p topic) = false →
        wsSendFrames patterns "mqtt" topic payload = []) ∧
    (∀ (patterns : List String) (topic payload : String),
        patterns.any (fun p => topicMatches p topic) = true →
        wsSendFrames patterns "mqtt" topic payload = [(topic, payload)]) ∧
    ((broadcast_mqtt [q1, q2] "x/1" "p").map ConsumerQueue.buffer =
        [[("x/1", "p")], [("x/1", "p")]] ∧
      wsSendFrames q1.subs "mqtt" "x/1" "p" = [("x/1", "p")] ∧
      wsSendFrames q2.subs "mqtt" "x/1" "p" = []) := by
  refine ⟨?_, ?_, ?_, ⟨by decide, by decide, by decide⟩⟩
  · intro hub topic payload q hq
    exact List.mem_map.mpr ⟨q, hq, rfl⟩
  · intro patterns topic payload hnone
    have hfilter : patterns.filter (fun p => topicMatches p topic) = [] := by
      rw [List.filter_eq_nil_iff]
      intro a ha
      have := List.any_eq_false.mp hnone a ha
      simpa using this
    simp [wsSendFrames, hfilter]
  · intro patterns topic payload hsome
    obtain ⟨a, ha, hmatch⟩ := List.any_eq_true.mp hsome
    have hne : patterns.filter (fun p => topicMatches p topic) ≠ [] := by
      intro hnil
      have := List.filter_eq_nil_iff.mp hnil a ha
      simp [hmatch] at this
    rcases hfe : patterns.filter (fun p => topicMatches p topic) with _ | ⟨b, bs⟩
    · exact absurd hfe hne
    · simp [wsSendFrames, hfe]

/-- Closed instantiation of `C1_deliver_appends_to_all` at the concrete
Q1/Q2 hub and a non-matching pattern list. -/
theorem C1_witness :
    { q2 with buffer := q2.buffer ++ [("x/1", "p")] } ∈
      broadcast_mqtt [q1, q2] "x/1" "p" ∧
    wsSendFrames ["y/#"] "mqtt" "x/1" "p" = [] ∧
    wsSendFrames ["x/#"] "mqtt" "x/1" "p" = [("x/1", "p")] :=
  ⟨C1_deliver_appends_to_all.1 [q1, q2] "x/1" "p" q2 (by decide),
   C1_deliver_appends_to_all.2.1 ["y/#"] "x/1" "p" (by decide),
   C1_deliver_appends_to_all.2.2.1 ["x/#"] "x/1" "p" (by decide)⟩

/-- C9: for every dequeued queue item, at most one outbound frame is sent
to the websocket client, even when several of the session's patterns
match the item's topic — the match loop breaks after the first match. -/
theorem C9_at_most_one_frame :
    ∀ (patterns : List String) (kind topic payload : String),
      (wsSendFrames patterns kind topic payload).length ≤ 1 := by
  intro patterns kind topic payload
  unfold wsSendFrames
  rcases h : (kind == "mqtt") with _ | _
  · simp
  · simp only [if_pos rfl]
    rcases patterns.filter (fun p => topicMatches p topic) with _ | ⟨b, bs⟩
    · simp
    · simp

/-- C6: for every inbound control frame whose JSON fails to parse or
whose `type` field is neither `"subscribe"` nor `"publish"`, the handler
raises (the frame is dropped), the session's matcher and the bus-facing
state are left unchanged, and the loop re-arms a new transport receive
instead of closing the session. -/
theorem C6_malformed_frame_dropped :
    ∀ (s : WsSession) (f : WsFrame),
      (f = .unparseable ∨
        ∃ t topic? payload?, f = .obj (some t) topic? payload? ∧
          t ≠ "subscribe" ∧ t ≠ "publish") →
      (∃ e, handle_ws_mqtt f s = .error e) ∧ wsRecvStep f s = (s, true) := by
  intro s f hf
  rcases hf with hf | ⟨t, topic?, payload?, hf, hsub, hpub⟩
  · subst hf
    exact ⟨⟨"json.loads failed", rfl⟩, rfl⟩
  · subst hf
    have hcond : ¬(t = "subscribe" ∨ t = "publish") := by
      rintro (h | h)
      · exact hsub h
      · exact hpub h
    constructor
    · exact ⟨"Invalid message type", by simp [handle_ws_mqtt, hcond]⟩
    · simp [wsRecvStep, handle_ws_mqtt, hcond]

/-- Closed instantiation of `C6_malformed_frame_dropped`: an unparseable
frame and a frame with type `"frobnicate"` are both dropped with the
session state untouched. -/
theorem C6_witness :
    ((∃ e, handle_ws_mqtt .unparseable ⟨["a/#"], ["a/#"], []⟩ = .error e) ∧
      wsRecvStep .unparseable ⟨["a/#"], ["a/#"], []⟩ =
        (⟨["a/#"], ["a/#"], []⟩, true)) ∧
    ((∃ e, handle_ws_mqtt (.obj (some "frobnicate") (some "a") none)
        ⟨[], [], []⟩ = .error e) ∧
      wsRecvStep (.obj (some "frobnicate") (some "a") none) ⟨[], [], []⟩ =
        (⟨[], [], []⟩, true)) :=
  ⟨C6_malformed_frame_dropped ⟨["a/#"], ["a/#"], []⟩ .unparseable (Or.inl rfl),
   C6_malformed_frame_dropped ⟨[], [], []⟩
     (.obj (some "frobnicate") (some "a") none)
     (Or.inr ⟨"frobnicate", some "a", none, rfl, by decide, by decide⟩)⟩

theorem rearmAll_countKind (k : WsTaskKind) :
    ∀ (l : List WsTask) (n : Nat),
      countKind k (rearmAll l n).1 = countKind k l := by
  intro l
  induction l with
  | nil => intro n; rfl
  | cons t ts ih =>
      intro n
      simp only [rearmAll, countKind, List.filter_cons]
      rcases h : (t.kind == k) with _ | _
      · simpa [countKind] using ih (n + 1)
      · simpa [countKind] using ih (n + 1)

theorem countKind_append (k : WsTaskKind) (l₁ l₂ : List WsTask) :
    countKind k (l₁ ++ l₂) = countKind k l₁ + countKind k l₂ := by
  simp [countKind, List.filter_append]

theorem countKind_perm (k : WsTaskKind) {l₁ l₂ : List WsTask}
    (h : List.Perm l₁ l₂) : countKind k l₁ = countKind k l₂ := by
  unfold countKind
  rw [← List.countP_eq_length_filter, ← List.countP_eq_length_filter]
  exact h.countP_eq _

theorem length_eq_countKind_add (l : List WsTask) :
    l.length = countKind .recv l + countKind .send l := by
  induction l with
  | nil => rfl
  | cons t ts ih =>
      simp only [List.length_cons, countKind, List.filter_cons]
      simp only [countKind] at ih
      rcases hk : t.kind with _ | _ <;> simp [hk] <;> omega

theorem wsLoopStep_countKind {s s' : WsLoopState} (k : WsTaskKind)
    (h : WsLoopStep s s') : countKind k s'.pending = countKind k s.pending := by
  cases h with
  | wait done rest hperm hne =>
      have h1 : countKind k s.pending = countKind k done + countKind k rest := by
        rw [countKind_perm k hperm, countKind_append]
      simp only [countKind_append, rearmAll_countKind, h1]
      omega

/-- C5: in every state the session loop can reach, exactly two awaits are
pending — one transport receive and one consumer-queue get — and every
loop iteration preserves the per-kind count: only the completed tasks are
re-created (as fresh tasks of the same kinds) while the remainder stays
pending, so no two transport frames and no two queue messages are ever
in flight at once within one session. -/
theorem C5_two_pending :
    (∀ s : WsLoopState, WsReachable s →
      countKind .recv s.pending = 1 ∧ countKind .send s.pending = 1 ∧
        s.pending.length = 2) ∧
    (∀ (s s' : WsLoopState) (k : WsTaskKind), WsLoopStep s s' →
      countKind k s'.pending = countKind k s.pending) := by
  constructor
  · intro s hs
    induction hs with
    | init => exact ⟨rfl, rfl, rfl⟩
    | step hr hstep ih =>
        refine ⟨?_, ?_, ?_⟩
        · rw [wsLoopStep_countKind .recv hstep]; exact ih.1
        · rw [wsLoopStep_countKind .send hstep]; exact ih.2.1
        · rw [length_eq_countKind_add, wsLoopStep_countKind .recv hstep,
            wsLoopStep_countKind .send hstep, ih.1, ih.2.1]
  · intro s s' k hstep
    exact wsLoopStep_countKind k hstep

/-- Closed instantiation of `C5_two_pending`: the invariant at the
initial state, and count preservation across the concrete first step in
which the transport receive completes and is re-armed. -/
theorem C5_witness :
    (countKind .recv wsInit.pending = 1 ∧ countKind .send wsInit.pending = 1 ∧
      wsInit.pending.length = 2) ∧
    countKind .recv
        (WsLoopState.pending
          { pending := [⟨.send, 1⟩] ++ (rearmAll [⟨.recv, 0⟩] wsInit.nextId).1,
            nextId := (rearmAll [⟨.recv, 0⟩] wsInit.nextId).2 }) =
      countKind .recv wsInit.pending :=
  ⟨C5_two_pending.1 wsInit WsReachable.init,
   C5_two_pending.2 wsInit
     { pending := [⟨.send, 1⟩] ++ (rearmAll [⟨.recv, 0⟩] wsInit.nextId).1,
       nextId := (rearmAll [⟨.recv, 0⟩] wsInit.nextId).2 }
     .recv
     (WsLoopStep.wait wsInit [⟨.recv, 0⟩] [⟨.send, 1⟩]
       (List.Perm.refl _) (by decide))⟩

/-- C7: on every exit path of a wrapped websocket handler — normal
return, exception or cancellation — the queue created at entry is absent
from the fan-out registries when the wrapper completes, and if the queue
was fresh the registries are restored exactly; the handler's exit is
propagated unchanged. -/
theorem filter_ne_append_self (l : List Nat) (q : Nat) (h : q ∉ l) :
    (l ++ [q]).filter (· ≠ q) = l := by
  rw [List.filter_append]
  have h1 : l.filter (· ≠ q) = l := by
    apply List.filter_eq_self.mpr
    intro a ha
    have hne : a ≠ q := fun haq => h (haq ▸ ha)
    simpa using hne
  rw [h1]
  simp

theorem C7_ws_teardown :
    ∀ (regs : WsRegistries) (q : Nat) (e : HandlerExit),
      q ∉ (mqtt_websocket regs q e).1.mqtt_websockets ∧
      q ∉ (mqtt_websocket regs q e).1.message_queues ∧
      q ∉ (logging_websocket regs q e).1.logging_websockets ∧
      (mqtt_websocket regs q e).2 = e ∧
      (logging_websocket regs q e).2 = e ∧
      (q ∉ regs.mqtt_websockets → q ∉ regs.message_queues →
        (mqtt_websocket regs q e).1 = regs) ∧
      (q ∉ regs.logging_websockets →
        (logging_websocket regs q e).1 = regs) := by
  intro regs q e
  rcases regs with ⟨m, mq, lg⟩
  refine ⟨?_, ?_, ?_, rfl, rfl, ?_, ?_⟩
  · simp [mqtt_websocket, List.mem_filter]
  · simp [mqtt_websocket, List.mem_filter]
  · simp [logging_websocket, List.mem_filter]
  · intro h1 h2
    have hm := filter_ne_append_self m q h1
    have hq := filter_ne_append_self mq q h2
    simp only [ne_eq] at hm hq
    simp [mqtt_websocket, hm, hq]
    exact ⟨fun a ha haq => h1 (haq ▸ ha), fun a ha haq => h2 (haq ▸ ha)⟩
  · intro h1
    have hl := filter_ne_append_self lg q h1
    simp only [ne_eq] at hl
    simp [logging_websocket, hl]
    exact fun a ha haq => h1 (haq ▸ ha)

/-- Closed instantiation of `C7_ws_teardown` at a concrete registry and
queue for each exit path. -/
theorem C7_witness :
    (7 ∉ (mqtt_websocket ⟨[3], [3], [4]⟩ 7 .raised).1.mqtt_websockets ∧
      (mqtt_websocket ⟨[3], [3], [4]⟩ 7 .raised).1 = ⟨[3], [3], [4]⟩) ∧
    (7 ∉ (logging_websocket ⟨[3], [3], [4]⟩ 7 .cancelled).1.logging_websockets ∧
      (logging_websocket ⟨[3], [3], [4]⟩ 7 .cancelled).1 = ⟨[3], [3], [4]⟩) :=
  ⟨⟨(C7_ws_teardown ⟨[3], [3], [4]⟩ 7 .raised).1,
    (C7_ws_teardown ⟨[3], [3], [4]⟩ 7 .raised).2.2.2.2.2.1
      (by decide) (by decide)⟩,
   ⟨(C7_ws_teardown ⟨[3], [3], [4]⟩ 7 .cancelled).2.2.1,
    (C7_ws_teardown ⟨[3], [3], [4]⟩ 7 .cancelled).2.2.2.2.2.2 (by decide)⟩⟩

theorem dictLookup_append_of_hasKey_false (d : SessionDict)
    (name v : String) (h : dictHasKey name d = false) :
    dictLookup name (d ++ [(name, v)]) = some v := by
  induction d with
  | nil =>
      unfold dictLookup
      rw [List.nil_append, List.find?_cons_of_pos _ (by simp)]
      rfl
  | cons kv d ih =>
      simp only [dictHasKey, List.any_cons, Bool.or_eq_false_iff] at h
      unfold dictLookup at ih ⊢
      rw [List.cons_append, List.find?_cons_of_neg _ (by simp [h.1])]
      exact ih h.2

theorem dictLookup_map_of_hasKey_true (d : SessionDict)
    (name v : String) (h : dictHasKey name d = true) :
    dictLookup name
      (d.map (fun kv => if kv.1 == name then (name, v) else kv)) = some v := by
  induction d with
  | nil => simp [dictHasKey] at h
  | cons kv d ih =>
      by_cases hk : kv.1 = name
      · have hmap :
            (kv :: d).map (fun kv => if kv.1 == name then (name, v) else kv) =
              (name, v) ::
                d.map (fun kv => if kv.1 == name then (name, v) else kv) := by
          simp [hk]
        rw [hmap]
        unfold dictLookup
        rw [List.find?_cons_of_pos _ (by simp)]
        rfl
      · have hmap :
            (kv :: d).map (fun kv => if kv.1 == name then (name, v) else kv) =
              kv :: d.map (fun kv => if kv.1 == name then (name, v) else kv) := by
          simp [hk]
        have h' : dictHasKey name d = true := by
          simp only [dictHasKey, List.any_cons] at h
          rcases (Bool.or_eq_true _ _).mp h with h1 | h1
          · exact absurd (by simpa using h1) hk
          · exact h1
        rw [hmap]
        unfold dictLookup at ih ⊢
        rw [List.find?_cons_of_neg _ (by simpa using hk)]
        exact ih h'

theorem dictLookup_set (d : SessionDict) (name v : String) :
    dictLookup name (dictSet name v d) = some v := by
  unfold dictSet
  rcases h : dictHasKey name d with _ | _
  · exact dictLookup_append_of_hasKey_false d name v h
  · exact dictLookup_map_of_hasKey_true d name v h

theorem dictLookup_erase (d : SessionDict) (name : String) :
    dictLookup name (dictErase name d) = none := by
  have h : (dictErase name d).find? (fun kv => kv.1 == name) = none := by
    rw [List.find?_eq_none]
    intro kv hkv
    have hmem := (List.mem_filter.mp hkv).2
    simpa using hmem
  unfold dictLookup
  rw [h]
  rfl

theorem dictHasKey_of_lookup_some {d : SessionDict} {name v : String}
    (h : dictLookup name d = some v) : dictHasKey name d = true := by
  unfold dictLookup at h
  rcases hf : d.find? (fun kv => kv.1 == name) with _ | kv
  · rw [hf] at h; simp at h
  · have hmem := List.mem_of_find?_eq_some hf
    have hp := List.find?_some hf
    unfold dictHasKey
    rw [List.any_eq_true]
    exact ⟨kv, hmem, hp⟩

theorem dictKeys_map_replace (d : SessionDict) (name v : String) :
    dictKeys (d.map (fun kv => if kv.1 == name then (name, v) else kv)) =
      dictKeys d := by
  induction d with
  | nil => rfl
  | cons kv d ih =>
      unfold dictKeys at ih ⊢
      simp only [List.map_cons]
      by_cases hk : kv.1 = name
      · rw [if_pos (by simp [hk]), ih, hk]
      · rw [if_neg (by simp [hk]), ih]

theorem dictKeys_set_of_hasKey_true {d : SessionDict} {name : String}
    (v : String) (h : dictHasKey name d = true) :
    dictKeys (dictSet name v d) = dictKeys d := by
  unfold dictSet
  rw [h]
  simp only [if_pos rfl]
  exact dictKeys_map_replace d name v

theorem dictKeys_set_nodup (d : SessionDict) (name v : String)
    (h : (dictKeys d).Nodup) : (dictKeys (dictSet name v d)).Nodup := by
  rcases hk : dictHasKey name d with _ | _
  · unfold dictSet
    rw [hk]
    simp only [Bool.false_eq_true, if_false]
    have hkeys : dictKeys (d ++ [(name, v)]) = dictKeys d ++ [name] := by
      simp [dictKeys]
    rw [hkeys]
    have hnot : name ∉ dictKeys d := by
      intro hmem
      obtain ⟨kv, hkv, hfst⟩ := List.mem_map.mp hmem
      have hany : dictHasKey name d = true := by
        unfold dictHasKey
        rw [List.any_eq_true]
        exact ⟨kv, hkv, by simp [hfst]⟩
      rw [hany] at hk
      exact Bool.noConfusion hk
    rw [List.nodup_append]
    refine ⟨h, by simp, ?_⟩
    intro a ha hb
    have : a = name := by simpa using hb
    exact hnot (this ▸ ha)
  · rw [dictKeys_set_of_hasKey_true v hk]
    exact h

theorem api_stop_recording_of_pop_none {d : SessionDict} {name : String}
    (wait : AsrWait) (h : dictPop name d = none) :
    api_stop_recording d name wait =
      { registry := d,
        response := .error ("No session for name: " ++ name),
        published := [] } := by
  unfold api_stop_recording
  rw [h]

theorem api_stop_recording_of_pop_some {d d' : SessionDict}
    {name sid : String} (wait : AsrWait)
    (h : dictPop name d = some (sid, d')) :
    api_stop_recording d name wait =
      { registry := d',
        response :=
          match wait with
          | .captured text => .ok text
          | .failed => .error "publish_wait failed",
        published := ["AsrStopListening sessionId=" ++ sid] } := by
  unfold api_stop_recording
  rw [h]

/-- C3: `start(name)` stores the fresh correlation id under the name and
returns it; `finish(name)` (the registry part of `api_stop_recording`)
yields the stored id and removes the entry; and a `finish` with no entry
present — in particular a second `finish` with no intervening `start` —
fails with the "No session for name" error instead of returning a stale
id, leaving the registry untouched. -/
theorem C3_session_registry :
    ∀ (d : SessionDict) (name fresh : String) (wait : AsrWait),
      (api_start_recording d name fresh).sessionId = fresh ∧
      dictLookup name (api_start_recording d name fresh).registry =
        some fresh ∧
      dictPop name (api_start_recording d name fresh).registry =
        some (fresh,
          dictErase name (api_start_recording d name fresh).registry) ∧
      (api_stop_recording (api_start_recording d name fresh).registry
          name wait).registry =
        dictErase name (api_start_recording d name fresh).registry ∧
      dictLookup name
        (api_stop_recording (api_start_recording d name fresh).registry
          name wait).registry = none ∧
      (api_stop_recording
          (api_stop_recording (api_start_recording d name fresh).registry
            name wait).registry name wait).response =
        .error ("No session for name: " ++ name) ∧
      (∀ (d₀ : SessionDict) (w : AsrWait), dictLookup name d₀ = none →
        api_stop_recording d₀ name w =
          { registry := d₀,
            response := .error ("No session for name: " ++ name),
            published := [] }) := by
  intro d name fresh wait
  simp only [api_start_recording]
  have h1 : dictLookup name (dictSet name fresh d) = some fresh :=
    dictLookup_set d name fresh
  have hpop : dictPop name (dictSet name fresh d) =
      some (fresh, dictErase name (dictSet name fresh d)) := by
    unfold dictPop
    rw [h1]
  have hreg : (api_stop_recording (dictSet name fresh d) name wait).registry =
      dictErase name (dictSet name fresh d) := by
    rw [api_stop_recording_of_pop_some wait hpop]
  have hpop2 : dictPop name (dictErase name (dictSet name fresh d)) = none := by
    unfold dictPop
    rw [dictLookup_erase]
  refine ⟨by trivial, h1, hpop, hreg, ?_, ?_, ?_⟩
  · rw [hreg]
    exact dictLookup_erase _ _
  · rw [hreg, api_stop_recording_of_pop_none wait hpop2]
  · intro d₀ w h0
    have hp0 : dictPop name d₀ = none := by
      unfold dictPop
      rw [h0]
    exact api_stop_recording_of_pop_none w hp0

/-- Closed instantiation of `C3_session_registry`: `start("cmd1")` with
fresh id `"A"`, one successful `finish`, and a `finish` with an empty
registry failing with the no-session error. -/
theorem C3_witness :
    (api_start_recording [] "cmd1" "A").sessionId = "A" ∧
    dictPop "cmd1" (api_start_recording [] "cmd1" "A").registry =
      some ("A", dictErase "cmd1" (api_start_recording [] "cmd1" "A").registry) ∧
    api_stop_recording [] "cmd1" .failed =
      { registry := [],
        response := .error ("No session for name: " ++ "cmd1"),
        published := [] } :=
  ⟨(C3_session_registry [] "cmd1" "A" .failed).1,
   (C3_session_registry [] "cmd1" "A" .failed).2.2.1,
   (C3_session_registry [] "cmd1" "A" .failed).2.2.2.2.2.2 [] .failed rfl⟩

/-- C8: the registry keeps at most one entry per name (key uniqueness is
preserved by `start`), a second `start` for the same name overwrites the
stored id, the key set is unchanged by the overwrite, and a subsequent
`finish` pops the id of the most recent `start`. -/
theorem C8_last_writer_wins :
    ∀ (d : SessionDict) (name f1 f2 : String),
      dictLookup name
        (api_start_recording (api_start_recording d name f1).registry
          name f2).registry = some f2 ∧
      dictKeys (api_start_recording (api_start_recording d name f1).registry
          name f2).registry =
        dictKeys (api_start_recording d name f1).registry ∧
      ((dictKeys d).Nodup →
        (dictKeys (api_start_recording d name f1).registry).Nodup) ∧
      dictPop name
          (api_start_recording (api_start_recording d name f1).registry
            name f2).registry =
        some (f2,
          dictErase name
            (api_start_recording (api_start_recording d name f1).registry
              name f2).registry) := by
  intro d name f1 f2
  simp only [api_start_recording]
  have h1 : dictLookup name (dictSet name f1 d) = some f1 :=
    dictLookup_set d name f1
  have h2 : dictLookup name (dictSet name f2 (dictSet name f1 d)) = some f2 :=
    dictLookup_set _ name f2
  refine ⟨h2, ?_, ?_, ?_⟩
  · exact dictKeys_set_of_hasKey_true f2 (dictHasKey_of_lookup_some h1)
  · intro hnodup
    exact dictKeys_set_nodup d name f1 hnodup
  · unfold dictPop
    rw [h2]

/-- Closed instantiation of `C8_last_writer_wins`: two `start("cmd1")`
calls with ids `"A"` then `"B"`; the lookup and the pop both yield `"B"`,
and key uniqueness is preserved from the empty registry. -/
theorem C8_witness :
    dictLookup "cmd1"
      (api_start_recording (api_start_recording [] "cmd1" "A").registry
        "cmd1" "B").registry = some "B" ∧
    (dictKeys (api_start_recording [] "cmd1" "A").registry).Nodup :=
  ⟨(C8_last_writer_wins [] "cmd1" "A" "B").1,
   (C8_last_writer_wins [] "cmd1" "A" "B").2.2.1 List.nodup_nil⟩

/-- C10: `api_stop_recording` removes the name's registry entry before it
waits for the transcription; the entry stays removed whichever way the
wait ends, nothing restores it on failure, and an immediate retry for the
same name fails with the no-session error. -/
theorem C10_no_restore_on_failure :
    ∀ (d : SessionDict) (name sid : String) (wait : AsrWait),
      dictLookup name d = some sid →
      (api_stop_recording d name wait).registry = dictErase name d ∧
      dictLookup name (api_stop_recording d name wait).registry = none ∧
      (∀ wait' : AsrWait,
        api_stop_recording (api_stop_recording d name wait).registry
            name wait' =
          { registry := (api_stop_recording d name wait).registry,
            response := .error ("No session for name: " ++ name),
            published := [] }) := by
  intro d name sid wait h
  have hpop : dictPop name d = some (sid, dictErase name d) := by
    unfold dictPop
    rw [h]
  have hreg : (api_stop_recording d name wait).registry = dictErase name d := by
    rw [api_stop_recording_of_pop_some wait hpop]
  refine ⟨hreg, ?_, ?_⟩
  · rw [hreg]
    exact dictLookup_erase _ _
  · intro wait'
    have hpop2 : dictPop name (api_stop_recording d name wait).registry =
        none := by
      rw [hreg]
      unfold dictPop
      rw [dictLookup_erase]
    exact api_stop_recording_of_pop_none wait' hpop2

/-- Closed instantiation of `C10_no_restore_on_failure`: stopping the
only session `("cmd1", "A")` with a failing wait leaves the registry
empty, and the immediate retry fails with the no-session error. -/
theorem C10_witness :
    (api_stop_recording [("cmd1", "A")] "cmd1" .failed).registry =
      dictErase "cmd1" [("cmd1", "A")] ∧
    api_stop_recording
        (api_stop_recording [("cmd1", "A")] "cmd1" .failed).registry
        "cmd1" .failed =
      { registry := (api_stop_recording [("cmd1", "A")] "cmd1" .failed).registry,
        response := .error ("No session for name: " ++ "cmd1"),
        published := [] } :=
  ⟨(C10_no_restore_on_failure [("cmd1", "A")] "cmd1" "A" .failed rfl).1,
   (C10_no_restore_on_failure [("cmd1", "A")] "cmd1" "A" .failed rfl).2.2
     .failed⟩

theorem waitLoop_timedOut {R : Type}
    (pred : String × String → Except String (Option R)) :
    ∀ inbound, (∀ m ∈ inbound, pred m = .ok none) →
      waitLoop pred inbound = .timedOut := by
  intro inbound
  induction inbound with
  | nil => intro _; rfl
  | cons m ms ih =>
      intro hall
      have hm := hall m (List.mem_cons_self m ms)
      unfold waitLoop
      rw [hm]
      exact ih (fun m' hm' => hall m' (List.mem_cons_of_mem _ hm'))

theorem waitLoop_result {R : Type}
    (pred : String × String → Except String (Option R)) :
    ∀ (pre : List (String × String)) (m : String × String)
      (post : List (String × String)) (r : R),
      (∀ m' ∈ pre, pred m' = .ok none) → pred m = .ok (some r) →
      waitLoop pred (pre ++ m :: post) = .result r := by
  intro pre
  induction pre with
  | nil =>
      intro m post r _ hm
      rw [List.nil_append]
      unfold waitLoop
      rw [hm]
  | cons p ps ih =>
      intro m post r hall hm
      have hp := hall p (List.mem_cons_self p ps)
      rw [List.cons_append]
      unfold waitLoop
      rw [hp]
      exact ih m post r (fun m' h' => hall m' (List.mem_cons_of_mem _ h')) hm

theorem waitLoop_raised {R : Type}
    (pred : String × String → Except String (Option R)) :
    ∀ (pre : List (String × String)) (m : String × String)
      (post : List (String × String)) (e : String),
      (∀ m' ∈ pre, pred m' = .ok none) → pred m = .error e →
      waitLoop pred (pre ++ m :: post) = .raised := by
  intro pre
  induction pre with
  | nil =>
      intro m post e _ hm
      rw [List.nil_append]
      unfold waitLoop
      rw [hm]
  | cons p ps ih =>
      intro m post e hall hm
      have hp := hall p (List.mem_cons_self p ps)
      rw [List.cons_append]
      unfold waitLoop
      rw [hp]
      exact ih m post e (fun m' h' => hall m' (List.mem_cons_of_mem _ h')) hm

/-- C2: `publish_wait` registers its private queue before any outbound
publish, publishes the outbound messages in the order given, returns the
first message's Result as soon as the predicate yields one, yields
`TimedOut` when no message satisfies the predicate before the deadline,
and deregisters the private queue on every exit path (result, timeout,
predicate exception), leaving the hub exactly as it was. -/
theorem C2_publish_wait_correct :
    ∀ (R : Type) (s : CorrState) (outbound : List String)
      (pred : String × String → Except String (Option R))
      (inbound : List (String × String)),
      (∀ x ∈ s.hub, x < s.nextHandle) →
      (publish_wait s outbound pred inbound).2.1.hub = s.hub ∧
      (∃ hq, hq ∉ s.hub ∧
        (publish_wait s outbound pred inbound).2.2 =
          CorrEv.registerQ hq ::
            (outbound.map CorrEv.publishMsg ++ [CorrEv.deregisterQ hq])) ∧
      ((∀ m ∈ inbound, pred m = .ok none) →
        (publish_wait s outbound pred inbound).1 = .timedOut) ∧
      (∀ (pre : List (String × String)) (m : String × String)
          (post : List (String × String)) (r : R),
        inbound = pre ++ m :: post → (∀ m' ∈ pre, pred m' = .ok none) →
        pred m = .ok (some r) →
        (publish_wait s outbound pred inbound).1 = .result r) ∧
      (∀ (pre : List (String × String)) (m : String × String)
          (post : List (String × String)) (e : String),
        inbound = pre ++ m :: post → (∀ m' ∈ pre, pred m' = .ok none) →
        pred m = .error e →
        (publish_wait s outbound pred inbound).1 = .raised) := by
  intro R s outbound pred inbound hfresh
  have hnotin : s.nextHandle ∉ s.hub := fun hmem =>
    Nat.lt_irrefl s.nextHandle (hfresh s.nextHandle hmem)
  refine ⟨?_, ⟨s.nextHandle, hnotin, rfl⟩, ?_, ?_, ?_⟩
  · show (corrDeregister s.nextHandle
      { hub := s.hub ++ [s.nextHandle], nextHandle := s.nextHandle + 1 }).hub =
        s.hub
    unfold corrDeregister
    exact filter_ne_append_self s.hub s.nextHandle hnotin
  · intro hall
    show waitLoop pred inbound = .timedOut
    exact waitLoop_timedOut pred inbound hall
  · intro pre m post r hsplit hall hm
    show waitLoop pred inbound = .result r
    rw [hsplit]
    exact waitLoop_result pred pre m post r hall hm
  · intro pre m post e hsplit hall hm
    show waitLoop pred inbound = .raised
    rw [hsplit]
    exact waitLoop_raised pred pre m post e hall hm

/-- Closed instantiation of `C2_publish_wait_correct`: with one queue
already registered, the call restores the hub, publishes in order, and
returns the second inbound message's payload as its Result. -/
theorem C2_witness :
    (publish_wait ⟨[5], 6⟩ ["AsrStartListening"] corrPredEx
        [("other", "x"), ("reply/42", "ok")]).2.1.hub = [5] ∧
    (publish_wait ⟨[5], 6⟩ ["AsrStartListening"] corrPredEx
        [("other", "x"), ("reply/42", "ok")]).1 = .result "ok" :=
  ⟨(C2_publish_wait_correct String ⟨[5], 6⟩ ["AsrStartListening"] corrPredEx
      [("other", "x"), ("reply/42", "ok")] (by
        intro x hx
        have hx5 : x = 5 := by simpa using hx
        subst hx5
        decide)).1,
   (C2_publish_wait_correct String ⟨[5], 6⟩ ["AsrStartListening"] corrPredEx
      [("other", "x"), ("reply/42", "ok")] (by
        intro x hx
        have hx5 : x = 5 := by simpa using hx
        subst hx5
        decide)).2.2.2.1
     [("other", "x")] ("reply/42", "ok") [] "ok" rfl
     (by
        intro m' hm'
        have : m' = ("other", "x") := by simpa using hm'
        subst this
        rfl)
     rfl⟩

end RhasspyBridge
